import Mathlib

/-
  Verification development for the birthday reminder program
  (src/birthday_matters.py).

  The civil calendar, the origin-date reinterpretation (`get_next_birthday`),
  the trigger policy (`should_notify`), the reminder sweep (`check_birthdays`),
  the record-set editing operations (`add_birthday`, `delete_birthday`) and the
  daily scheduler loop are shallowly embedded below.  Python dates are modelled
  by the `Date` structure (year/month/day with the Gregorian validity rules and
  the 1..9999 year range that `datetime.date` enforces); Python exceptions are
  modelled by `Option`, with `none` for a raised error.  The external
  lunisolar-conversion library and the external `schedule` library are not part
  of src/ and are modelled from the specification, as marked on their
  definitions.
-/

namespace BirthdayMatters

/-- Gregorian leap-year test, as used by Python's `datetime` module. -/
def isLeap (y : Nat) : Bool :=
  (y % 4 == 0 && !(y % 100 == 0)) || y % 400 == 0

/-- Length of month `m` (1..12) in a year whose leap flag is `leap`;
0 for out-of-range months. -/
def daysInMonthOf (leap : Bool) (m : Nat) : Nat :=
  match m with
  | 1 => 31
  | 2 => if leap then 29 else 28
  | 3 => 31
  | 4 => 30
  | 5 => 31
  | 6 => 30
  | 7 => 31
  | 8 => 31
  | 9 => 30
  | 10 => 31
  | 11 => 30
  | 12 => 31
  | _ => 0

/-- Length of month `m` in year `y`. -/
def daysInMonth (y m : Nat) : Nat := daysInMonthOf (isLeap y) m

/-- Number of days of year strictly before month `m` (so 0 for January). -/
def daysBeforeMonth (leap : Bool) : Nat → Nat
  | 0 => 0
  | m + 1 => daysBeforeMonth leap m + daysInMonthOf leap m

/-- Length of a year as a function of its leap flag. -/
def yearLen (l : Bool) : Nat := if l then 366 else 365

/-- Number of days in year `y`. -/
def daysInYear (y : Nat) : Nat := yearLen (isLeap y)

/-- Number of days in all years strictly before year `y` (years count from 1,
as in the proleptic Gregorian calendar used by `datetime.date`). -/
def daysBeforeYear (y : Nat) : Nat :=
  365 * (y - 1) + (y - 1) / 4 + (y - 1) / 400 - (y - 1) / 100

/-- A civil (solar) calendar date, the model of Python's `datetime.date`. -/
structure Date where
  year : Nat
  month : Nat
  day : Nat
deriving DecidableEq, Repr

/-- The validity check performed by the `datetime.date` constructor:
year in 1..9999 (`MINYEAR`..`MAXYEAR`), month in 1..12, day in range for
the month. -/
def Date.validB (d : Date) : Bool :=
  decide (1 ≤ d.year) && decide (d.year ≤ 9999) &&
  decide (1 ≤ d.month) && decide (d.month ≤ 12) &&
  decide (1 ≤ d.day) && decide (d.day ≤ daysInMonth d.year d.month)

/-- Strict date comparison: Python compares dates lexicographically on
(year, month, day). -/
def Date.lt (a b : Date) : Bool :=
  decide (a.year < b.year) ||
  (decide (a.year = b.year) &&
    (decide (a.month < b.month) ||
      (decide (a.month = b.month) && decide (a.day < b.day))))

/-- Non-strict date comparison (Python `<=` on dates). -/
def Date.le (a b : Date) : Bool :=
  Date.lt a b || decide (a = b)

/-- Rata-die day number of a date (day 1 is 0001-01-01).  The difference of
two `rata` values is the `.days` of the difference of the two Python dates. -/
def rata (d : Date) : Nat :=
  daysBeforeYear d.year + daysBeforeMonth (isLeap d.year) d.month + d.day

/-- Python whitespace characters, the set stripped by `str.strip()`. -/
def pyIsSpace (c : Char) : Bool :=
  c == ' ' || c == '\t' || c == '\n' || c == '\r' || c == '\u000B' || c == '\u000C'

/-- Strip Python whitespace from both ends of a character list. -/
def pyStripChars (cs : List Char) : List Char :=
  ((cs.dropWhile pyIsSpace).reverse.dropWhile pyIsSpace).reverse

/-- Model of Python's `str.strip()`. -/
def pyStrip (s : String) : String :=
  String.mk (pyStripChars s.data)

/-- Split a character list at each `-`, keeping empty groups
(model of the splitting implicit in matching the `%Y-%m-%d` format). -/
def splitDash : List Char → List Char → List (List Char)
  | [], acc => [acc.reverse]
  | c :: cs, acc =>
    if c = '-' then acc.reverse :: splitDash cs []
    else splitDash cs (c :: acc)

/-- The `%Y` field of `strptime`: exactly four digits. -/
def groupYear (cs : List Char) : Bool :=
  decide (cs.length = 4) && cs.all Char.isDigit

/-- The `%m` / `%d` fields of `strptime`: one or two digits (value range is
checked afterwards by the `date` constructor). -/
def groupMonthDay (cs : List Char) : Bool :=
  (decide (cs.length = 1) || decide (cs.length = 2)) && cs.all Char.isDigit

/-- Numeric value of a digit string. -/
def digitsToNat (cs : List Char) : Nat :=
  cs.foldl (fun n c => 10 * n + (c.toNat - 48)) 0

/-- Model of `datetime.datetime.strptime(s, "%Y-%m-%d")` (followed by
`.date()`): the whole string must be year-month-day separated by `-`, and the
resulting triple must be a constructible `datetime.date`; a `ValueError` is
modelled by `none`. -/
def parse_date (s : String) : Option Date :=
  match splitDash s.data [] with
  | [ys, ms, ds] =>
    if groupYear ys && groupMonthDay ms && groupMonthDay ds then
      let d : Date := ⟨digitsToNat ys, digitsToNat ms, digitsToNat ds⟩
      if d.validB then some d else none
    else none
  | _ => none

/-- Model of `d.replace(year=y)` on a `datetime.date`: the new triple is
re-validated by the `date` constructor, and a `ValueError` (nonexistent day,
or year outside 1..9999) is modelled by `none`. -/
def replaceYear (d : Date) (y : Nat) : Option Date :=
  if Date.validB ⟨y, d.month, d.day⟩ then some ⟨y, d.month, d.day⟩ else none

/-- The solar branch of `get_next_birthday` (src lines 83-85):
reinterpret the origin's month/day in today's year; keep it if it is on or
after today, otherwise reinterpret in the next year. -/
def get_next_birthday_solar (d today : Date) : Option Date :=
  match replaceYear d today.year with
  | none => none
  | some this_year =>
    if Date.le today this_year then some this_year
    else replaceYear d (today.year + 1)

/-- A lunisolar (year, month, day, leap-month) value, the model of the
external library's `LunarDate`. -/
structure LunarTriple where
  year : Nat
  month : Nat
  day : Nat
  isLeapMonth : Bool
deriving DecidableEq, Repr

/-- Modelled from the spec: the interface of the external lunisolar
conversion library (`lunardate`), which is not part of src/.
`fromSolarDate` converts a civil date to its lunisolar representation and
`toSolarDate` converts a lunisolar date forward to its civil equivalent in a
candidate civil year; a conversion outside the library's supported range
raises, modelled by `none`. -/
structure LunarCalendar where
  fromSolarDate : Date → Option LunarTriple
  toSolarDate : LunarTriple → Nat → Option Date

/-- The lunar branch of `get_next_birthday` (src lines 76-81): convert the
origin civil date to lunisolar form once, convert it forward into today's
civil year, and if the result is strictly before today convert it forward
into the next civil year instead. -/
def get_next_birthday_lunar (cal : LunarCalendar) (d today : Date) : Option Date :=
  match cal.fromSolarDate d with
  | none => none
  | some lunar_date =>
    match cal.toSolarDate lunar_date today.year with
    | none => none
    | some solar =>
      if Date.lt solar today then cal.toSolarDate lunar_date (today.year + 1)
      else some solar

/-- Model of `get_next_birthday(date_str, lunar)` (src lines 72-85), with the
hidden `datetime.date.today()` input made explicit and the external lunisolar
library abstracted as a `LunarCalendar`. -/
def get_next_birthday (cal : LunarCalendar) (date_str : String) (lunar : Bool)
    (today : Date) : Option Date :=
  match parse_date date_str with
  | none => none
  | some d =>
    if lunar then get_next_birthday_lunar cal d today
    else get_next_birthday_solar d today

/-- Modelled from the spec: a concrete stand-in instance of the external
lunisolar library used only to instantiate witnesses and counterexamples.
It keeps the two interface facts the spec states about the real library:
conversions outside the supported year range 1900-2099 fail
(spec section 4.1, failure clause), and converting a lunisolar date forward
into candidate civil year `Y` yields a valid civil date no earlier than the
start of year `Y`.  The month/day arithmetic of the real Chinese lunisolar
calendar is not reproduced. -/
def lunardateModel : LunarCalendar where
  fromSolarDate d :=
    if decide (1900 ≤ d.year) && decide (d.year ≤ 2099) then
      some ⟨d.year, d.month, d.day, false⟩
    else none
  toSolarDate ld y :=
    if decide (1900 ≤ y) && decide (y ≤ 2099) && Date.validB ⟨y, ld.month, ld.day⟩ then
      some ⟨y, ld.month, ld.day⟩
    else none

/-- Lookup in the reminder-rule mapping, the model of `REMIND_RULES.get`. -/
def rulesLookup (rules : List (Nat × List Int)) (p : Nat) : Option (List Int) :=
  match rules with
  | [] => none
  | kv :: rest => if kv.1 = p then some kv.2 else rulesLookup rest p

/-- Model of `should_notify(days_left, priority)` (src lines 91-92), with the
module-global `REMIND_RULES` made an explicit parameter:
`days_left in REMIND_RULES.get(priority, [0])`. -/
def should_notify (rules : List (Nat × List Int)) (days_left : Int) (priority : Nat) : Bool :=
  ((rulesLookup rules priority).getD [0]).contains days_left

/-- The value part of a birthday record, the model of the per-name dict
`{"date": ..., "lunar": ..., "priority": ...}`. -/
structure RecordInfo where
  date : String
  lunar : Bool
  priority : Nat
deriving DecidableEq, Repr

/-- A reminder event: the data `notify(name, days_left, priority)` is called
with for a record that fires. -/
structure Event where
  name : String
  days_left : Int
  priority : Nat
deriving DecidableEq, Repr

/-- The mutable program state the sweep and the editing operations touch:
the in-memory `birthdays` dict, modelled as an insertion-ordered association
list with unique keys. -/
structure AppState where
  birthdays : List (String × RecordInfo)
deriving DecidableEq, Repr

/-- Evaluation of one record inside the sweep loop (src lines 134-137):
`none` models `get_next_birthday` raising for this record, `some none` a
record that does not fire, `some (some e)` a record that fires event `e`. -/
def evalRecord (cal : LunarCalendar) (today : Date) (rules : List (Nat × List Int))
    (name : String) (info : RecordInfo) : Option (Option Event) :=
  match get_next_birthday cal info.date info.lunar today with
  | none => none
  | some next_bd =>
    let days_left : Int := (rata next_bd : Int) - (rata today : Int)
    if should_notify rules days_left info.priority then
      some (some ⟨name, days_left, info.priority⟩)
    else some none

/-- The event a record contributes to a completed sweep, if any. -/
def emittedEvent (cal : LunarCalendar) (today : Date) (rules : List (Nat × List Int))
    (r : String × RecordInfo) : Option Event :=
  match evalRecord cal today rules r.1 r.2 with
  | none => none
  | some oe => oe

/-- One iteration of the `for name, info in birthdays.items()` loop of
`check_birthdays`.  The accumulator carries the program state (which the loop
body never writes), the events delivered so far, and whether the loop is
still running: an unhandled exception in `get_next_birthday` stops the loop,
keeping the events already delivered. -/
def sweepBody (cal : LunarCalendar) (today : Date) (rules : List (Nat × List Int))
    (acc : AppState × List Event × Bool) (r : String × RecordInfo) :
    AppState × List Event × Bool :=
  match acc with
  | (s, evs, ok) =>
    if ok then
      match evalRecord cal today rules r.1 r.2 with
      | none => (s, evs, false)
      | some none => (s, evs, true)
      | some (some e) => (s, evs ++ [e], true)
    else (s, evs, false)

/-- Model of `check_birthdays()` (src lines 131-137): iterate over the
records in order, computing each one's next occurrence and days left and
notifying when the rule set says so.  Returns the final program state, the
events delivered, and whether the sweep ran to completion (`false` when a
record's calculation raised, aborting the remainder of the sweep). -/
def check_birthdays (cal : LunarCalendar) (today : Date) (rules : List (Nat × List Int))
    (s : AppState) : AppState × List Event × Bool :=
  s.birthdays.foldl (sweepBody cal today rules) (s, [], true)

/-- First-match lookup in the birthdays dict. -/
def dictLookup (k : String) : List (String × RecordInfo) → Option RecordInfo
  | [] => none
  | kv :: rest => if kv.1 = k then some kv.2 else dictLookup k rest

/-- Model of `birthdays[name] = value` on a Python dict: replace the value in
place when the key exists (keeping its position), otherwise append. -/
def dictInsert (k : String) (v : RecordInfo) (bs : List (String × RecordInfo)) :
    List (String × RecordInfo) :=
  if bs.any (fun kv => kv.1 == k) then
    bs.map (fun kv => if kv.1 = k then (k, v) else kv)
  else bs ++ [(k, v)]

/-- Model of `add_birthday()` (src lines 153-175), with the form inputs made
explicit parameters.  Returns the new record set together with the error
message key shown, if any (`"empty_name"` or `"date_error"`, the keys of the
`T` text table). -/
def add_birthday (bs : List (String × RecordInfo)) (name_input date_input : String)
    (lunar : Bool) (priority : Nat) : List (String × RecordInfo) × Option String :=
  let name := pyStrip name_input
  let date := pyStrip date_input
  if name = "" then (bs, some "empty_name")
  else
    match parse_date date with
    | none => (bs, some "date_error")
    | some _ => (dictInsert name ⟨date, lunar, priority⟩ bs, none)

/-- Model of `delete_birthday()`'s effect on the record set
(src lines 177-184): `birthdays.pop(name, None)` removes the entry with the
given name, if present. -/
def delete_birthday (bs : List (String × RecordInfo)) (name : String) :
    List (String × RecordInfo) :=
  bs.eraseP (fun kv => kv.1 == name)

/-- The record-set invariant of the data model: names are unique and
non-empty. -/
def GoodKeys (bs : List (String × RecordInfo)) : Prop :=
  (bs.map Prod.fst).Nodup ∧ ∀ kv ∈ bs, kv.1 ≠ ""

instance goodKeysDecidable (bs : List (String × RecordInfo)) : Decidable (GoodKeys bs) :=
  inferInstanceAs (Decidable ((bs.map Prod.fst).Nodup ∧ ∀ kv ∈ bs, kv.1 ≠ ""))

/-- Modelled from the spec: the next-run computation of the external
`schedule` library for a daily job registered `.day.at(T)` (the library is
not part of src/).  Times are seconds; at time `t`, the next run is today at
time-of-day `T` if `T` has not yet passed, otherwise tomorrow at `T`.  The
same computation gives the job's initial `next_run` at registration time and
its rescheduled `next_run` after it runs. -/
def schedule_next_run (T t : Nat) : Nat :=
  if t % 86400 < T then t / 86400 * 86400 + T
  else (t / 86400 + 1) * 86400 + T

/-- State of the `scheduler_loop` (src lines 143-147) before its `k`-th poll:
the pending `next_run` of the daily job.  The loop polls `run_pending()`
every 60 seconds starting at registration time `t0`, and `run_pending` runs
the job exactly when the current time has reached `next_run` (a `>=`
comparison, never exact equality), rescheduling it afterwards. -/
def scheduler_nr (T t0 : Nat) : Nat → Nat
  | 0 => schedule_next_run T t0
  | k + 1 =>
    if scheduler_nr T t0 k ≤ t0 + 60 * k then schedule_next_run T (t0 + 60 * k)
    else scheduler_nr T t0 k

/-- Whether the sweep runs at the `k`-th poll of the scheduler loop. -/
def scheduler_ran (T t0 k : Nat) : Bool :=
  decide (scheduler_nr T t0 k ≤ t0 + 60 * k)

/-- The failing record of the partial-failure scenarios: a lunar record whose
origin date is outside the lunisolar library's supported range. -/
def anaRec : String × RecordInfo := ("Ana", ⟨"1850-06-10", true, 3⟩)

/-- A healthy solar record used alongside `anaRec`. -/
def bobRec : String × RecordInfo := ("Bob", ⟨"2000-06-10", false, 3⟩)

/-- Unfolding of the leap-year test into arithmetic conditions. -/
theorem isLeap_iff (y : Nat) :
    isLeap y = true ↔ (y % 4 = 0 ∧ y % 100 ≠ 0) ∨ y % 400 = 0 := by
  simp [isLeap]

/-- Componentwise form of date equality. -/
theorem Date.eq_iff {a b : Date} :
    a = b ↔ a.year = b.year ∧ a.month = b.month ∧ a.day = b.day := by
  cases a; cases b; simp

/-- Componentwise form of the strict date comparison. -/
theorem Date.lt_iff {a b : Date} :
    Date.lt a b = true ↔
      a.year < b.year ∨ (a.year = b.year ∧
        (a.month < b.month ∨ (a.month = b.month ∧ a.day < b.day))) := by
  simp [Date.lt]

/-- Componentwise form of the non-strict date comparison. -/
theorem Date.le_iff {a b : Date} :
    Date.le a b = true ↔
      a.year < b.year ∨ (a.year = b.year ∧
        (a.month < b.month ∨ (a.month = b.month ∧ a.day ≤ b.day))) := by
  rw [Date.le, Bool.or_eq_true, Date.lt_iff, decide_eq_true_eq, Date.eq_iff]
  omega

/-- The date order is total: a failed `<` is a reversed `≤`. -/
theorem Date.lt_eq_false_iff {a b : Date} :
    Date.lt a b = false ↔ Date.le b a = true := by
  rw [← Bool.not_eq_true, Date.lt_iff, Date.le_iff]
  omega

/-- A failed `≤` is a reversed `<`. -/
theorem Date.le_eq_false_iff {a b : Date} :
    Date.le a b = false ↔ Date.lt b a = true := by
  rw [← Bool.not_eq_true, Date.le_iff, Date.lt_iff]
  omega

/-- Componentwise form of constructor validity. -/
theorem Date.valid_iff {d : Date} :
    d.validB = true ↔
      1 ≤ d.year ∧ d.year ≤ 9999 ∧ 1 ≤ d.month ∧ d.month ≤ 12 ∧
      1 ≤ d.day ∧ d.day ≤ daysInMonthOf (isLeap d.year) d.month := by
  simp [Date.validB, daysInMonth, and_assoc]

/-- Month lengths never exceed 31 days. -/
theorem daysInMonthOf_le (l : Bool) : ∀ m, m ≤ 12 → daysInMonthOf l m ≤ 31 := by
  cases l <;> decide

/-- Peeling one month off `daysBeforeMonth`. -/
theorem daysBeforeMonth_succ (l : Bool) (m : Nat) :
    daysBeforeMonth l (m + 1) = daysBeforeMonth l m + daysInMonthOf l m := rfl

/-- `daysBeforeMonth` is monotone over the months of a year. -/
theorem daysBeforeMonth_mono (l : Bool) :
    ∀ a, a ≤ 13 → ∀ b, b ≤ 13 → a ≤ b → daysBeforeMonth l a ≤ daysBeforeMonth l b := by
  cases l <;> decide

/-- A month's offset plus its length stays within the year. -/
theorem daysBeforeMonth_add_daysInMonthOf_le (l : Bool) :
    ∀ m, 1 ≤ m → m ≤ 12 → daysBeforeMonth l m + daysInMonthOf l m ≤ yearLen l := by
  cases l <;> decide

/-- Changing only the leap flag moves a month offset by at most one day. -/
theorem daysBeforeMonth_flag_le (l l' : Bool) :
    ∀ m, m ≤ 13 → daysBeforeMonth l m ≤ daysBeforeMonth l' m + 1 := by
  cases l <;> cases l' <;> decide

/-- `daysBeforeMonth` is bounded by 335 for real months. -/
theorem daysBeforeMonth_le (l : Bool) : ∀ m, m ≤ 12 → daysBeforeMonth l m ≤ 335 := by
  cases l <;> decide

set_option maxHeartbeats 1000000 in
/-- Stepping `daysBeforeYear` over one year adds that year's length. -/
theorem daysBeforeYear_succ (y : Nat) (hy : 1 ≤ y) :
    daysBeforeYear (y + 1) = daysBeforeYear y + daysInYear y := by
  have h := isLeap_iff y
  unfold daysBeforeYear daysInYear yearLen
  by_cases hl : isLeap y = true
  · rw [if_pos hl]
    rw [h] at hl
    omega
  · rw [if_neg hl]
    rw [h] at hl
    omega

/-- One step of `daysBeforeYear` monotonicity. -/
theorem daysBeforeYear_le_succ (y : Nat) :
    daysBeforeYear y ≤ daysBeforeYear (y + 1) := by
  rcases Nat.eq_zero_or_pos y with rfl | hy
  · exact Nat.le_refl _
  · rw [daysBeforeYear_succ y hy]
    omega

/-- `daysBeforeYear` is monotone. -/
theorem daysBeforeYear_mono {y y' : Nat} (h : y ≤ y') :
    daysBeforeYear y ≤ daysBeforeYear y' := by
  induction y' with
  | zero =>
    have hz : y = 0 := by omega
    subst hz
    exact Nat.le_refl _
  | succ z ih =>
    rcases Nat.lt_or_ge y (z + 1) with hlt | hge
    · exact Nat.le_trans (ih (by omega)) (daysBeforeYear_le_succ z)
    · have hz : y = z + 1 := by omega
      subst hz
      exact Nat.le_refl _

/-- Day-of-year offsets respect the month/day lexicographic order
(non-strict version). -/
theorem off_le (l : Bool) (m d m' d' : Nat) (hm12 : m ≤ 12) (hm'12 : m' ≤ 12)
    (hd : d ≤ daysInMonthOf l m) (hd1 : 1 ≤ d')
    (h : m < m' ∨ (m = m' ∧ d ≤ d')) :
    daysBeforeMonth l m + d ≤ daysBeforeMonth l m' + d' := by
  rcases h with h | ⟨rfl, h⟩
  · have h1 := daysBeforeMonth_succ l m
    have h2 := daysBeforeMonth_mono l (m + 1) (by omega) m' (by omega) h
    omega
  · omega

/-- Day-of-year offsets respect the month/day lexicographic order
(strict version). -/
theorem off_lt (l : Bool) (m d m' d' : Nat) (hm12 : m ≤ 12) (hm'12 : m' ≤ 12)
    (hd : d ≤ daysInMonthOf l m) (hd1 : 1 ≤ d')
    (h : m < m' ∨ (m = m' ∧ d < d')) :
    daysBeforeMonth l m + d < daysBeforeMonth l m' + d' := by
  rcases h with h | ⟨rfl, h⟩
  · have h1 := daysBeforeMonth_succ l m
    have h2 := daysBeforeMonth_mono l (m + 1) (by omega) m' (by omega) h
    omega
  · omega

/-- The rata-die numbering is monotone with respect to the lexicographic
date order (so Python date subtraction of ordered valid dates is
non-negative). -/
theorem rata_le_rata {a b : Date} (ha : a.validB = true) (hb : b.validB = true)
    (h : Date.le a b = true) : rata a ≤ rata b := by
  rw [Date.valid_iff] at ha hb
  rw [Date.le_iff] at h
  unfold rata
  rcases h with hy | ⟨hy, hmd⟩
  · have h1 := daysBeforeMonth_add_daysInMonthOf_le (isLeap a.year) a.month
      (by omega) (by omega)
    have h2 := daysBeforeYear_succ a.year (by omega)
    have h3 := daysBeforeYear_mono (show a.year + 1 ≤ b.year by omega)
    have h4 : daysInYear a.year = yearLen (isLeap a.year) := rfl
    omega
  · have hd := ha.2.2.2.2.2
    rw [hy] at hd
    rw [hy]
    have h5 := off_le (isLeap b.year) a.month a.day b.month b.day
      (by omega) (by omega) hd (by omega) hmd
    omega

/-- Years are at most 366 days long. -/
theorem yearLen_le (l : Bool) : yearLen l ≤ 366 := by
  cases l <;> decide

/-- Characterization of a successful `d.replace(year=y)`. -/
theorem replaceYear_eq_some {d : Date} {y : Nat} {r : Date} :
    replaceYear d y = some r ↔
      Date.validB ⟨y, d.month, d.day⟩ = true ∧ r = ⟨y, d.month, d.day⟩ := by
  by_cases hv : Date.validB ⟨y, d.month, d.day⟩ = true
  · rw [replaceYear, if_pos hv]
    constructor
    · intro h
      exact ⟨hv, (Option.some.inj h).symm⟩
    · rintro ⟨h1, rfl⟩
      rfl
  · rw [replaceYear, if_neg hv]
    constructor
    · intro h
      cases h
    · rintro ⟨h1, rfl⟩
      exact absurd h1 hv

/-- Case analysis of a successful solar-branch computation. -/
theorem solar_eq_some {d today r : Date}
    (h : get_next_birthday_solar d today = some r) :
    Date.validB ⟨today.year, d.month, d.day⟩ = true ∧
      ((Date.le today ⟨today.year, d.month, d.day⟩ = true ∧
          r = ⟨today.year, d.month, d.day⟩) ∨
        (Date.le today ⟨today.year, d.month, d.day⟩ = false ∧
          Date.validB ⟨today.year + 1, d.month, d.day⟩ = true ∧
          r = ⟨today.year + 1, d.month, d.day⟩)) := by
  unfold get_next_birthday_solar at h
  cases hr : replaceYear d today.year with
  | none =>
    rw [hr] at h
    exact Option.noConfusion h
  | some ty =>
    simp only [hr] at h
    rw [replaceYear_eq_some] at hr
    obtain ⟨hv, rfl⟩ := hr
    refine ⟨hv, ?_⟩
    by_cases hle : Date.le today ⟨today.year, d.month, d.day⟩ = true
    · rw [if_pos hle] at h
      exact Or.inl ⟨hle, (Option.some.inj h).symm⟩
    · rw [if_neg hle] at h
      rw [replaceYear_eq_some] at h
      exact Or.inr ⟨Bool.not_eq_true _ ▸ hle, h.1, h.2⟩

/-- Claim C1 (amended): whenever the solar-case calculation
`get_next_birthday(..., lunar=false)` returns a date at all, that date is on
or after `today`, at most 366 days after `today`, carries the origin's month
and day, and is the earliest valid date on or after `today` with that month
and day; it is the reinterpretation of the origin's month/day in `today`'s
year when that is not strictly before `today`, and the reinterpretation in
`today`'s year + 1 otherwise.  The claim's universal form — that a date is
returned for every valid origin date and today — is refuted by
`get_next_birthday_solar_feb29_unrepresentable`: for a Feb 29 origin and a
non-leap target year the reinterpretation raises `ValueError` instead. -/
theorem get_next_birthday_solar_spec (d today r : Date)
    (hd : d.validB = true) (ht : today.validB = true)
    (h : get_next_birthday_solar d today = some r) :
    Date.le today r = true ∧
    r.validB = true ∧
    rata today ≤ rata r ∧
    rata r ≤ rata today + 366 ∧
    r.month = d.month ∧ r.day = d.day ∧
    (∀ x : Date, x.validB = true → Date.le today x = true →
      x.month = d.month → x.day = d.day → Date.le r x = true) ∧
    (Date.le today ⟨today.year, d.month, d.day⟩ = true →
      r = ⟨today.year, d.month, d.day⟩) ∧
    (Date.le today ⟨today.year, d.month, d.day⟩ = false →
      r = ⟨today.year + 1, d.month, d.day⟩) := by
  obtain ⟨hv, hcase⟩ := solar_eq_some h
  have htc := Date.valid_iff.mp ht
  have hvc := Date.valid_iff.mp hv
  dsimp only at hvc
  rcases hcase with ⟨hle, rfl⟩ | ⟨hle, hv2, rfl⟩
  · -- the reinterpretation in today's year is not before today
    refine ⟨hle, hv, rata_le_rata ht hv hle, ?_, rfl, rfl, ?_, ?_, ?_⟩
    · unfold rata
      dsimp only
      have h1 := daysBeforeMonth_le (isLeap today.year) d.month (by omega)
      have h2 := daysInMonthOf_le (isLeap today.year) d.month (by omega)
      omega
    · intro x hx hxle hxm hxd
      rw [Date.le_iff] at hxle ⊢
      dsimp only
      omega
    · intro _
      rfl
    · intro hcontra
      rw [hle] at hcontra
      exact Bool.noConfusion hcontra
  · -- rolled over to today's year + 1
    have hv2c := Date.valid_iff.mp hv2
    dsimp only at hv2c
    have hlt := Date.le_eq_false_iff.mp hle
    rw [Date.lt_iff] at hlt
    dsimp only at hlt
    have hyr : Date.le today ⟨today.year + 1, d.month, d.day⟩ = true := by
      rw [Date.le_iff]
      dsimp only
      omega
    refine ⟨hyr, hv2, rata_le_rata ht hv2 hyr, ?_, rfl, rfl, ?_, ?_, ?_⟩
    · unfold rata
      dsimp only
      have hstep := daysBeforeYear_succ today.year (by omega)
      have hylen : daysInYear today.year = yearLen (isLeap today.year) := rfl
      have hbound := yearLen_le (isLeap today.year)
      have hflag := daysBeforeMonth_flag_le (isLeap (today.year + 1))
        (isLeap today.year) d.month (by omega)
      have hoff := off_lt (isLeap today.year) d.month d.day today.month today.day
        (by omega) (by omega) (by omega) (by omega) (by omega)
      omega
    · intro x hx hxle hxm hxd
      rw [Date.le_iff] at hxle ⊢
      dsimp only
      omega
    · intro hcontra
      rw [hcontra] at hle
      exact Bool.noConfusion hle
    · intro _
      rfl

/-- Witness for C1 at a concrete input: origin 2000-06-10, today 2025-03-05,
returning 2025-06-10. -/
theorem get_next_birthday_solar_spec_witness :
    (⟨2000, 6, 10⟩ : Date).validB = true ∧
    (⟨2025, 3, 5⟩ : Date).validB = true ∧
    get_next_birthday_solar ⟨2000, 6, 10⟩ ⟨2025, 3, 5⟩ = some ⟨2025, 6, 10⟩ ∧
    Date.le ⟨2025, 3, 5⟩ ⟨2025, 6, 10⟩ = true ∧
    rata (⟨2025, 6, 10⟩ : Date) ≤ rata (⟨2025, 3, 5⟩ : Date) + 366 :=
  ⟨by decide, by decide, by decide,
    (get_next_birthday_solar_spec ⟨2000, 6, 10⟩ ⟨2025, 3, 5⟩ ⟨2025, 6, 10⟩
      (by decide) (by decide) (by decide)).1,
    (get_next_birthday_solar_spec ⟨2000, 6, 10⟩ ⟨2025, 3, 5⟩ ⟨2025, 6, 10⟩
      (by decide) (by decide) (by decide)).2.2.2.1⟩

/-- Counterexample to C1 as literally stated: the origin 2000-02-29 and
today 2025-01-01 are both valid civil dates, yet the solar-case calculation
returns no date at all (the reinterpretation of Feb 29 in the non-leap year
2025 raises `ValueError`), so in particular it returns no date on or after
`today`. -/
theorem get_next_birthday_solar_feb29_unrepresentable :
    (⟨2000, 2, 29⟩ : Date).validB = true ∧
    (⟨2025, 1, 1⟩ : Date).validB = true ∧
    get_next_birthday_solar ⟨2000, 2, 29⟩ ⟨2025, 1, 1⟩ = none := by
  decide

/-- Claim C3 (code bug evidence): contrary to the spec's required fallback
policy, a Feb 29 origin with a non-leap target year makes the solar-case
calculation fail — `date.replace(year=2025)` raises `ValueError` (modelled
by `none`) on the spec's own scenario (origin 2000-02-29,
today 2025-02-27) — instead of resolving to Feb 28 or Mar 1. -/
theorem get_next_birthday_solar_feb29_raises :
    (⟨2000, 2, 29⟩ : Date).validB = true ∧
    (⟨2025, 2, 27⟩ : Date).validB = true ∧
    isLeap 2025 = false ∧
    get_next_birthday_solar ⟨2000, 2, 29⟩ ⟨2025, 2, 27⟩ = none := by
  decide

/-- The stand-in lunisolar library converts into a civil year no earlier
than the candidate year (the property the spec states for forward
conversion). -/
theorem lunardateModel_year_ge (ld : LunarTriple) (y : Nat) (r : Date)
    (h : lunardateModel.toSolarDate ld y = some r) : y ≤ r.year := by
  unfold lunardateModel at h
  dsimp only at h
  split at h
  · cases h
    exact Nat.le_refl _
  · exact Option.noConfusion h

/-- The stand-in lunisolar library returns constructible civil dates. -/
theorem lunardateModel_valid (ld : LunarTriple) (y : Nat) (r : Date)
    (h : lunardateModel.toSolarDate ld y = some r) : r.validB = true := by
  unfold lunardateModel at h
  dsimp only at h
  split at h
  next hc =>
    rw [Bool.and_eq_true, Bool.and_eq_true] at hc
    cases h
    exact hc.2
  next => exact Option.noConfusion h

/-- Claim C2: the lunar-case calculation converts the civil origin date to
its lunisolar representation exactly once (the result depends on the origin
only through `fromSolarDate`), then returns the civil equivalent of that
lunisolar date in `today`'s year when that is not strictly before `today`,
and otherwise the civil equivalent in `today`'s year + 1; under the
spec-stated library property that forward conversion into candidate year `Y`
lands in civil year `Y` or later, every date it returns is on or after
`today`.  The lunisolar library is not part of src/ and is modelled from the
spec as the abstract `LunarCalendar` interface. -/
theorem get_next_birthday_lunar_spec (cal : LunarCalendar)
    (hcal : ∀ ld y r, cal.toSolarDate ld y = some r → y ≤ r.year)
    (d d' today : Date) (ld : LunarTriple) (s1 : Date)
    (hfrom : cal.fromSolarDate d = some ld)
    (hsame : cal.fromSolarDate d' = cal.fromSolarDate d)
    (h1 : cal.toSolarDate ld today.year = some s1) :
    get_next_birthday_lunar cal d' today = get_next_birthday_lunar cal d today ∧
    (Date.lt s1 today = false →
      get_next_birthday_lunar cal d today = some s1 ∧ Date.le today s1 = true) ∧
    (Date.lt s1 today = true →
      get_next_birthday_lunar cal d today = cal.toSolarDate ld (today.year + 1) ∧
      ∀ r2 : Date, cal.toSolarDate ld (today.year + 1) = some r2 →
        Date.le today r2 = true) := by
  refine ⟨?_, ?_, ?_⟩
  · unfold get_next_birthday_lunar
    rw [hsame]
  · intro hge
    constructor
    · simp only [get_next_birthday_lunar, hfrom, h1, hge, Bool.false_eq_true,
        if_false]
    · exact Date.lt_eq_false_iff.mp hge
  · intro hlt
    constructor
    · simp only [get_next_birthday_lunar, hfrom, h1, hlt, if_true]
    · intro r2 hr2
      have hy := hcal ld (today.year + 1) r2 hr2
      rw [Date.le_iff]
      omega

/-- Witness for C2 at a concrete input: lunar origin 2000-06-10,
today 2025-03-05, with the stand-in lunisolar calendar. -/
theorem get_next_birthday_lunar_spec_witness :
    lunardateModel.fromSolarDate ⟨2000, 6, 10⟩ = some ⟨2000, 6, 10, false⟩ ∧
    lunardateModel.toSolarDate ⟨2000, 6, 10, false⟩ 2025 = some ⟨2025, 6, 10⟩ ∧
    (get_next_birthday_lunar lunardateModel ⟨2000, 6, 10⟩ ⟨2025, 3, 5⟩ =
        get_next_birthday_lunar lunardateModel ⟨2000, 6, 10⟩ ⟨2025, 3, 5⟩ ∧
      (Date.lt ⟨2025, 6, 10⟩ ⟨2025, 3, 5⟩ = false →
        get_next_birthday_lunar lunardateModel ⟨2000, 6, 10⟩ ⟨2025, 3, 5⟩ =
            some ⟨2025, 6, 10⟩ ∧
          Date.le ⟨2025, 3, 5⟩ ⟨2025, 6, 10⟩ = true) ∧
      (Date.lt ⟨2025, 6, 10⟩ ⟨2025, 3, 5⟩ = true →
        get_next_birthday_lunar lunardateModel ⟨2000, 6, 10⟩ ⟨2025, 3, 5⟩ =
            lunardateModel.toSolarDate ⟨2000, 6, 10, false⟩ 2026 ∧
          ∀ r2 : Date, lunardateModel.toSolarDate ⟨2000, 6, 10, false⟩ 2026 = some r2 →
            Date.le ⟨2025, 3, 5⟩ r2 = true)) :=
  ⟨by decide, by decide,
    get_next_birthday_lunar_spec lunardateModel lunardateModel_year_ge
      ⟨2000, 6, 10⟩ ⟨2000, 6, 10⟩ ⟨2025, 3, 5⟩ ⟨2000, 6, 10, false⟩ ⟨2025, 6, 10⟩
      (by decide) rfl (by decide)⟩

/-- Claim C4: the trigger policy fires exactly when `days_left` is a member
of the rule set's entry for the priority, with the default entry `[0]` when
the priority is unconfigured — so an unconfigured priority fires only at
offset 0, and in particular not at `days_left = 1`; out-of-set values give
`false` with no error. -/
theorem should_notify_spec (rules : List (Nat × List Int)) (days_left : Int)
    (priority : Nat) (hnn : 0 ≤ days_left) :
    (should_notify rules days_left priority = true ↔
      days_left ∈ (rulesLookup rules priority).getD [0]) ∧
    (rulesLookup rules priority = none →
      (should_notify rules days_left priority = true ↔ days_left = 0)) ∧
    (rulesLookup rules priority = none →
      should_notify rules 1 priority = false) := by
  have hmem : ∀ dl : Int, should_notify rules dl priority = true ↔
      dl ∈ (rulesLookup rules priority).getD [0] := by
    intro dl
    unfold should_notify
    simp
  refine ⟨hmem days_left, ?_, ?_⟩
  · intro hnone
    rw [hmem days_left, hnone]
    simp
  · intro hnone
    unfold should_notify
    rw [hnone]
    decide

/-- Witness for C4: an unconfigured priority 5 with `days_left = 1` under
the rule set mapping priority 3 to offsets 0 and 1. -/
theorem should_notify_spec_witness :
    (0 ≤ (1 : Int)) ∧
    ((should_notify [(3, [0, 1])] 1 5 = true ↔
        (1 : Int) ∈ (rulesLookup [(3, [0, 1])] 5).getD [0]) ∧
      (rulesLookup [(3, [0, 1])] 5 = none →
        (should_notify [(3, [0, 1])] 1 5 = true ↔ (1 : Int) = 0)) ∧
      (rulesLookup [(3, [0, 1])] 5 = none →
        should_notify [(3, [0, 1])] 1 5 = false)) :=
  ⟨by decide, should_notify_spec [(3, [0, 1])] 1 5 (by decide)⟩

/-- The loop body never writes the program state. -/
theorem sweepBody_fst (cal : LunarCalendar) (today : Date)
    (rules : List (Nat × List Int)) (acc : AppState × List Event × Bool)
    (r : String × RecordInfo) :
    (sweepBody cal today rules acc r).1 = acc.1 := by
  rcases acc with ⟨st, evs, ok⟩
  cases ok
  · rfl
  · unfold sweepBody
    dsimp only
    rw [if_pos rfl]
    cases evalRecord cal today rules r.1 r.2 with
    | none => rfl
    | some oe => cases oe <;> rfl

/-- Folding the loop body over any record list never writes the program
state. -/
theorem foldl_sweepBody_fst (cal : LunarCalendar) (today : Date)
    (rules : List (Nat × List Int)) :
    ∀ (l : List (String × RecordInfo)) (acc : AppState × List Event × Bool),
      (l.foldl (sweepBody cal today rules) acc).1 = acc.1 := by
  intro l
  induction l with
  | nil => intro acc; rfl
  | cons r rest ih =>
    intro acc
    rw [List.foldl_cons, ih (sweepBody cal today rules acc r), sweepBody_fst]

/-- Unfolding of the loop body while the loop is still running. -/
theorem sweepBody_true (cal : LunarCalendar) (today : Date)
    (rules : List (Nat × List Int)) (s : AppState) (evs : List Event)
    (r : String × RecordInfo) :
    sweepBody cal today rules (s, evs, true) r =
      match evalRecord cal today rules r.1 r.2 with
      | none => (s, evs, false)
      | some none => (s, evs, true)
      | some (some e) => (s, evs ++ [e], true) := by
  unfold sweepBody
  dsimp only
  rw [if_pos rfl]

/-- When every record evaluates without an exception, the sweep loop runs to
completion and delivers exactly the per-record events, in record order. -/
theorem foldl_sweepBody_ok (cal : LunarCalendar) (today : Date)
    (rules : List (Nat × List Int)) :
    ∀ (l : List (String × RecordInfo)) (s : AppState) (evs : List Event),
      (∀ r ∈ l, (evalRecord cal today rules r.1 r.2).isSome = true) →
      l.foldl (sweepBody cal today rules) (s, evs, true) =
        (s, evs ++ l.filterMap (emittedEvent cal today rules), true) := by
  intro l
  induction l with
  | nil =>
    intro s evs _
    simp
  | cons r rest ih =>
    intro s evs h
    have hr := h r (List.mem_cons_self r rest)
    have hrest : ∀ x ∈ rest, (evalRecord cal today rules x.1 x.2).isSome = true :=
      fun x hx => h x (List.mem_cons_of_mem r hx)
    rw [List.foldl_cons, sweepBody_true]
    cases he : evalRecord cal today rules r.1 r.2 with
    | none =>
      rw [he] at hr
      exact Bool.noConfusion hr
    | some oe =>
      cases oe with
      | none =>
        simp only [he, List.filterMap_cons, emittedEvent]
        exact ih s evs hrest
      | some e =>
        simp only [he, List.filterMap_cons, emittedEvent]
        rw [ih s (evs ++ [e]) hrest]
        simp [List.append_assoc]

/-- A successful occurrence computation (either branch) lands on or after
`today` and yields a constructible date, given the spec-stated facts about
the lunisolar library's forward conversion. -/
theorem get_next_birthday_ge (cal : LunarCalendar)
    (hyear : ∀ ld y r, cal.toSolarDate ld y = some r → y ≤ r.year)
    (hval : ∀ ld y r, cal.toSolarDate ld y = some r → r.validB = true)
    (ds : String) (lunar : Bool) (today nb : Date) (ht : today.validB = true)
    (h : get_next_birthday cal ds lunar today = some nb) :
    Date.le today nb = true ∧ nb.validB = true := by
  unfold get_next_birthday at h
  cases hp : parse_date ds with
  | none =>
    rw [hp] at h
    exact Option.noConfusion h
  | some d =>
    simp only [hp] at h
    by_cases hl : lunar = true
    · rw [if_pos hl] at h
      unfold get_next_birthday_lunar at h
      cases hf : cal.fromSolarDate d with
      | none =>
        rw [hf] at h
        exact Option.noConfusion h
      | some ld =>
        simp only [hf] at h
        cases h1 : cal.toSolarDate ld today.year with
        | none =>
          rw [h1] at h
          exact Option.noConfusion h
        | some s1 =>
          simp only [h1] at h
          by_cases hlt : Date.lt s1 today = true
          · rw [if_pos hlt] at h
            have hy := hyear ld (today.year + 1) nb h
            refine ⟨?_, hval ld (today.year + 1) nb h⟩
            rw [Date.le_iff]
            omega
          · rw [if_neg hlt] at h
            obtain rfl : s1 = nb := Option.some.inj h
            exact ⟨Date.lt_eq_false_iff.mp (Bool.not_eq_true _ ▸ hlt),
              hval ld today.year s1 h1⟩
    · rw [if_neg hl] at h
      obtain ⟨hv, hcase⟩ := solar_eq_some h
      have htc := Date.valid_iff.mp ht
      rcases hcase with ⟨hle, rfl⟩ | ⟨hle, hv2, rfl⟩
      · exact ⟨hle, hv⟩
      · refine ⟨?_, hv2⟩
        rw [Date.le_iff]
        dsimp only
        omega

/-- Claim C8: the reminder sweep only reads the record set; running it
leaves the program state exactly as it was, so a second run starting from
the state the first run left behind is the same computation. -/
theorem check_birthdays_frame (cal : LunarCalendar) (today : Date)
    (rules : List (Nat × List Int)) (s : AppState) :
    (check_birthdays cal today rules s).1 = s ∧
    check_birthdays cal today rules (check_birthdays cal today rules s).1 =
      check_birthdays cal today rules s := by
  have h1 : (check_birthdays cal today rules s).1 = s :=
    foldl_sweepBody_fst cal today rules s.birthdays (s, [], true)
  exact ⟨h1, by rw [h1]⟩

/-- Claim C5 (code bug evidence): `check_birthdays` has no per-record error
handling, so one record whose occurrence calculation raises (here a lunar
record outside the lunisolar library's supported range) aborts the whole
sweep: with the failing record first, the healthy record `Bob` — which on
its own produces a reminder event — is never evaluated and no event is
delivered. -/
theorem check_birthdays_abort_on_failure :
    evalRecord lunardateModel ⟨2025, 6, 9⟩ [(3, [0, 1])] anaRec.1 anaRec.2 = none ∧
    check_birthdays lunardateModel ⟨2025, 6, 9⟩ [(3, [0, 1])] ⟨[anaRec, bobRec]⟩ =
      (⟨[anaRec, bobRec]⟩, [], false) ∧
    check_birthdays lunardateModel ⟨2025, 6, 9⟩ [(3, [0, 1])] ⟨[bobRec]⟩ =
      (⟨[bobRec]⟩, [⟨"Bob", 1, 3⟩], true) := by
  decide

/-- Counterexample to C6 as literally stated: with a failing record in the
set, the records after it are never evaluated, so the sweep does not emit an
event for every record whose trigger policy holds, and record order changes
which events are produced: the same two records in the two orders yield no
events versus Bob's event. -/
theorem check_birthdays_order_dependent :
    (check_birthdays lunardateModel ⟨2025, 6, 9⟩ [(3, [0, 1])]
        ⟨[anaRec, bobRec]⟩).2.1 = [] ∧
    (check_birthdays lunardateModel ⟨2025, 6, 9⟩ [(3, [0, 1])]
        ⟨[bobRec, anaRec]⟩).2.1 = [⟨"Bob", 1, 3⟩] ∧
    [anaRec, bobRec].Perm [bobRec, anaRec] ∧
    should_notify [(3, [0, 1])]
      ((rata (⟨2025, 6, 10⟩ : Date) : Int) - (rata (⟨2025, 6, 9⟩ : Date) : Int))
      bobRec.2.priority = true ∧
    get_next_birthday lunardateModel bobRec.2.date bobRec.2.lunar ⟨2025, 6, 9⟩ =
      some ⟨2025, 6, 10⟩ :=
  ⟨by decide, by decide, List.Perm.swap bobRec anaRec [], by decide, by decide⟩

/-- Claim C6 (amended): when the occurrence calculation succeeds for every
record in the set (and the lunisolar library satisfies the spec's interface
facts), the sweep completes, emits exactly one event per record whose
trigger policy returns true — carrying that record's name, its non-negative
`days_left = next - today` in whole days, and its priority — and the
multiset of emitted events is invariant under reordering of the records.
As literally stated (for every record set) the claim fails: see
`check_birthdays_order_dependent`. -/
theorem check_birthdays_spec (cal : LunarCalendar)
    (hyear : ∀ ld y r, cal.toSolarDate ld y = some r → y ≤ r.year)
    (hval : ∀ ld y r, cal.toSolarDate ld y = some r → r.validB = true)
    (s : AppState) (today : Date) (rules : List (Nat × List Int))
    (ht : today.validB = true)
    (hok : ∀ r ∈ s.birthdays, (evalRecord cal today rules r.1 r.2).isSome = true) :
    (check_birthdays cal today rules s).2.2 = true ∧
    (check_birthdays cal today rules s).2.1 =
      s.birthdays.filterMap (emittedEvent cal today rules) ∧
    (∀ r ∈ s.birthdays, ∀ nb : Date,
      get_next_birthday cal r.2.date r.2.lunar today = some nb →
      0 ≤ (rata nb : Int) - (rata today : Int) ∧
      emittedEvent cal today rules r =
        (if should_notify rules ((rata nb : Int) - (rata today : Int)) r.2.priority = true
          then some ⟨r.1, (rata nb : Int) - (rata today : Int), r.2.priority⟩
          else none)) ∧
    (∀ s' : AppState, s.birthdays.Perm s'.birthdays →
      (check_birthdays cal today rules s).2.1.Perm
        (check_birthdays cal today rules s').2.1) := by
  have hfold := foldl_sweepBody_ok cal today rules s.birthdays s [] hok
  have h22 : (check_birthdays cal today rules s).2.2 = true := by
    unfold check_birthdays
    rw [hfold]
  have h21 : (check_birthdays cal today rules s).2.1 =
      s.birthdays.filterMap (emittedEvent cal today rules) := by
    unfold check_birthdays
    rw [hfold]
    simp
  refine ⟨h22, h21, ?_, ?_⟩
  · intro r hr nb hnb
    obtain ⟨hle, hnv⟩ :=
      get_next_birthday_ge cal hyear hval r.2.date r.2.lunar today nb ht hnb
    have hrata := rata_le_rata ht hnv hle
    refine ⟨by omega, ?_⟩
    simp only [emittedEvent, evalRecord, hnb]
    by_cases hs : should_notify rules ((rata nb : Int) - (rata today : Int))
        r.2.priority = true
    · rw [if_pos hs, if_pos hs]
    · rw [if_neg hs, if_neg hs]
  · intro s' hperm
    have hok' : ∀ r ∈ s'.birthdays, (evalRecord cal today rules r.1 r.2).isSome = true :=
      fun r hr => hok r (hperm.mem_iff.mpr hr)
    have hfold' := foldl_sweepBody_ok cal today rules s'.birthdays s' [] hok'
    have h21' : (check_birthdays cal today rules s').2.1 =
        s'.birthdays.filterMap (emittedEvent cal today rules) := by
      unfold check_birthdays
      rw [hfold']
      simp
    rw [h21, h21']
    exact hperm.filterMap _

/-- Witness for C6 at a concrete input: the single healthy record `Bob`,
today 2025-06-09, rule set `{3 : [0, 1]}`. -/
theorem check_birthdays_spec_witness :
    (⟨2025, 6, 9⟩ : Date).validB = true ∧
    (∀ r ∈ (⟨[bobRec]⟩ : AppState).birthdays,
      (evalRecord lunardateModel ⟨2025, 6, 9⟩ [(3, [0, 1])] r.1 r.2).isSome = true) ∧
    ((check_birthdays lunardateModel ⟨2025, 6, 9⟩ [(3, [0, 1])] ⟨[bobRec]⟩).2.2 = true ∧
      (check_birthdays lunardateModel ⟨2025, 6, 9⟩ [(3, [0, 1])] ⟨[bobRec]⟩).2.1 =
        (⟨[bobRec]⟩ : AppState).birthdays.filterMap
          (emittedEvent lunardateModel ⟨2025, 6, 9⟩ [(3, [0, 1])]) ∧
      (∀ r ∈ (⟨[bobRec]⟩ : AppState).birthdays, ∀ nb : Date,
        get_next_birthday lunardateModel r.2.date r.2.lunar ⟨2025, 6, 9⟩ = some nb →
        0 ≤ (rata nb : Int) - (rata (⟨2025, 6, 9⟩ : Date) : Int) ∧
        emittedEvent lunardateModel ⟨2025, 6, 9⟩ [(3, [0, 1])] r =
          (if should_notify [(3, [0, 1])]
              ((rata nb : Int) - (rata (⟨2025, 6, 9⟩ : Date) : Int)) r.2.priority = true
            then some ⟨r.1, (rata nb : Int) - (rata (⟨2025, 6, 9⟩ : Date) : Int),
              r.2.priority⟩
            else none)) ∧
      (∀ s' : AppState, (⟨[bobRec]⟩ : AppState).birthdays.Perm s'.birthdays →
        (check_birthdays lunardateModel ⟨2025, 6, 9⟩ [(3, [0, 1])] ⟨[bobRec]⟩).2.1.Perm
          (check_birthdays lunardateModel ⟨2025, 6, 9⟩ [(3, [0, 1])] s').2.1)) :=
  ⟨by decide, by decide,
    check_birthdays_spec lunardateModel lunardateModel_year_ge lunardateModel_valid
      ⟨[bobRec]⟩ ⟨2025, 6, 9⟩ [(3, [0, 1])] (by decide) (by decide)⟩

/-- Replacing a key's value in place keeps the key list identical. -/
theorem map_fst_replace (k : String) (v : RecordInfo) (bs : List (String × RecordInfo)) :
    (bs.map (fun kv => if kv.1 = k then (k, v) else kv)).map Prod.fst =
      bs.map Prod.fst := by
  rw [List.map_map]
  have hfun : Prod.fst ∘ (fun kv : String × RecordInfo =>
      if kv.1 = k then (k, v) else kv) = Prod.fst := by
    funext kv
    by_cases h : kv.1 = k
    · simp [h]
    · simp [h]
  rw [hfun]

/-- In-place insertion of a non-empty key preserves the record-set
invariant. -/
theorem dictInsert_goodKeys {bs : List (String × RecordInfo)} {k : String}
    (v : RecordInfo) (hg : GoodKeys bs) (hk : k ≠ "") :
    GoodKeys (dictInsert k v bs) := by
  unfold dictInsert
  by_cases hany : bs.any (fun kv => kv.1 == k) = true
  · rw [if_pos hany]
    constructor
    · rw [map_fst_replace]
      exact hg.1
    · intro kv hkv
      rw [List.mem_map] at hkv
      obtain ⟨kv0, hkv0, rfl⟩ := hkv
      by_cases h0 : kv0.1 = k
      · rw [if_pos h0]
        exact hk
      · rw [if_neg h0]
        exact hg.2 kv0 hkv0
  · rw [if_neg hany]
    rw [Bool.not_eq_true, List.any_eq_false] at hany
    constructor
    · rw [List.map_append]
      rw [List.nodup_append]
      refine ⟨hg.1, List.nodup_singleton _, ?_⟩
      intro x hx
      rw [List.mem_map] at hx
      obtain ⟨kv0, hkv0, rfl⟩ := hx
      have := hany kv0 hkv0
      simp only [beq_iff_eq] at this
      simp [this]
    · intro kv hkv
      rw [List.mem_append] at hkv
      rcases hkv with hkv | hkv
      · exact hg.2 kv hkv
      · rw [List.mem_singleton] at hkv
        rw [hkv]
        exact hk

/-- Removing a record preserves the record-set invariant. -/
theorem delete_birthday_goodKeys (bs : List (String × RecordInfo)) (name : String)
    (hg : GoodKeys bs) : GoodKeys (delete_birthday bs name) := by
  unfold delete_birthday
  constructor
  · exact hg.1.sublist ((List.eraseP_sublist bs).map Prod.fst)
  · intro kv hkv
    exact hg.2 kv ((List.eraseP_sublist bs).subset hkv)

/-- Claim C9: record creation rejects an empty or whitespace-only name
without touching the record set, and every editing operation (adding with
any inputs, deleting any name) preserves the invariant that record names
are unique and non-empty. -/
theorem add_birthday_name_invariant (bs : List (String × RecordInfo))
    (name_input date_input : String) (lunar : Bool) (priority : Nat)
    (hg : GoodKeys bs) :
    (pyStrip name_input = "" →
      add_birthday bs name_input date_input lunar priority = (bs, some "empty_name")) ∧
    GoodKeys (add_birthday bs name_input date_input lunar priority).1 ∧
    (∀ name : String, GoodKeys (delete_birthday bs name)) := by
  refine ⟨?_, ?_, fun name => delete_birthday_goodKeys bs name hg⟩
  · intro hempty
    unfold add_birthday
    rw [if_pos hempty]
  · unfold add_birthday
    by_cases hempty : pyStrip name_input = ""
    · rw [if_pos hempty]
      exact hg
    · rw [if_neg hempty]
      cases parse_date (pyStrip date_input) with
      | none => exact hg
      | some pd => exact dictInsert_goodKeys _ hg hempty

/-- Witness for C9: a whitespace-only name against a one-record set. -/
theorem add_birthday_name_invariant_witness :
    GoodKeys [("Bob", ⟨"2000-06-10", false, 3⟩)] ∧
    ((pyStrip "   " = "" →
      add_birthday [("Bob", ⟨"2000-06-10", false, 3⟩)] "   " "1999-01-02" false 2 =
        ([("Bob", ⟨"2000-06-10", false, 3⟩)], some "empty_name")) ∧
    GoodKeys (add_birthday [("Bob", ⟨"2000-06-10", false, 3⟩)]
      "   " "1999-01-02" false 2).1 ∧
    (∀ name : String,
      GoodKeys (delete_birthday [("Bob", ⟨"2000-06-10", false, 3⟩)] name))) :=
  ⟨by decide,
    add_birthday_name_invariant [("Bob", ⟨"2000-06-10", false, 3⟩)]
      "   " "1999-01-02" false 2 (by decide)⟩

/-- A present key makes the dict's membership test succeed. -/
theorem dictLookup_any {k : String} {v : RecordInfo} :
    ∀ {bs : List (String × RecordInfo)}, dictLookup k bs = some v →
      bs.any (fun kv => kv.1 == k) = true := by
  intro bs
  induction bs with
  | nil => intro h; cases h
  | cons kv rest ih =>
    intro h
    unfold dictLookup at h
    rw [List.any_cons, Bool.or_eq_true]
    by_cases hk : kv.1 = k
    · left
      simp [hk]
    · rw [if_neg hk] at h
      right
      exact ih h

/-- After an in-place replacement the lookup finds the new value. -/
theorem dictLookup_map_replace (k : String) (v : RecordInfo) :
    ∀ (bs : List (String × RecordInfo)) (old : RecordInfo),
      dictLookup k bs = some old →
      dictLookup k (bs.map (fun kv => if kv.1 = k then (k, v) else kv)) = some v := by
  intro bs
  induction bs with
  | nil => intro old h; cases h
  | cons kv rest ih =>
    intro old h
    unfold dictLookup at h
    rw [List.map_cons]
    by_cases hk : kv.1 = k
    · rw [if_pos hk]
      unfold dictLookup
      rw [if_pos rfl]
    · rw [if_neg hk] at h
      rw [if_neg hk]
      unfold dictLookup
      rw [if_neg hk]
      exact ih old h

/-- Claim C10: adding a record under an already-present (stripped) name
succeeds with no error and silently replaces the stored date, calendar tag
and priority; the key list — hence the number of records and the absence of
duplicates — is unchanged. -/
theorem add_birthday_replaces_existing (bs : List (String × RecordInfo))
    (name_input date_input : String) (lunar : Bool) (priority : Nat)
    (oldv : RecordInfo) (pdd : Date)
    (hname : pyStrip name_input ≠ "")
    (hl : dictLookup (pyStrip name_input) bs = some oldv)
    (hp : parse_date (pyStrip date_input) = some pdd) :
    (add_birthday bs name_input date_input lunar priority).2 = none ∧
    dictLookup (pyStrip name_input)
        (add_birthday bs name_input date_input lunar priority).1 =
      some ⟨pyStrip date_input, lunar, priority⟩ ∧
    (add_birthday bs name_input date_input lunar priority).1.length = bs.length ∧
    (add_birthday bs name_input date_input lunar priority).1.map Prod.fst =
      bs.map Prod.fst := by
  have hins : add_birthday bs name_input date_input lunar priority =
      (dictInsert (pyStrip name_input)
        ⟨pyStrip date_input, lunar, priority⟩ bs, none) := by
    unfold add_birthday
    rw [if_neg hname, hp]
  have hrepl : dictInsert (pyStrip name_input)
      ⟨pyStrip date_input, lunar, priority⟩ bs =
      bs.map (fun kv => if kv.1 = pyStrip name_input
        then (pyStrip name_input, (⟨pyStrip date_input, lunar, priority⟩ : RecordInfo))
        else kv) := by
    unfold dictInsert
    rw [if_pos (dictLookup_any hl)]
  rw [hins, hrepl]
  refine ⟨rfl, dictLookup_map_replace _ _ bs oldv hl, ?_, map_fst_replace _ _ bs⟩
  exact List.length_map bs _

/-- Witness for C10: re-adding `Ana` with a new date and priority. -/
theorem add_birthday_replaces_existing_witness :
    pyStrip "Ana" ≠ "" ∧
    dictLookup (pyStrip "Ana") [("Ana", ⟨"2000-06-10", false, 3⟩)] =
      some ⟨"2000-06-10", false, 3⟩ ∧
    parse_date (pyStrip "1999-01-02") = some ⟨1999, 1, 2⟩ ∧
    ((add_birthday [("Ana", ⟨"2000-06-10", false, 3⟩)] "Ana" "1999-01-02" true 5).2 =
        none ∧
      dictLookup (pyStrip "Ana")
          (add_birthday [("Ana", ⟨"2000-06-10", false, 3⟩)] "Ana" "1999-01-02" true 5).1 =
        some ⟨pyStrip "1999-01-02", true, 5⟩ ∧
      (add_birthday [("Ana", ⟨"2000-06-10", false, 3⟩)] "Ana" "1999-01-02" true 5).1.length =
        [("Ana", (⟨"2000-06-10", false, 3⟩ : RecordInfo))].length ∧
      (add_birthday [("Ana", ⟨"2000-06-10", false, 3⟩)] "Ana" "1999-01-02" true 5).1.map
          Prod.fst =
        [("Ana", (⟨"2000-06-10", false, 3⟩ : RecordInfo))].map Prod.fst) :=
  ⟨by decide, by decide, by decide,
    add_birthday_replaces_existing [("Ana", ⟨"2000-06-10", false, 3⟩)]
      "Ana" "1999-01-02" true 5 ⟨"2000-06-10", false, 3⟩ ⟨1999, 1, 2⟩
      (by decide) (by decide) (by decide)⟩

/-- The rescheduling computation lands at time-of-day `T`, strictly in the
future, and at most one day ahead. -/
theorem schedule_next_run_spec (T t : Nat) (hT : T < 86400) :
    schedule_next_run T t % 86400 = T ∧
    t < schedule_next_run T t ∧
    schedule_next_run T t ≤ t + 86400 := by
  unfold schedule_next_run
  by_cases h : t % 86400 < T
  · rw [if_pos h]
    omega
  · rw [if_neg h]
    omega

/-- Unfolding of the scheduler state at the first poll. -/
theorem scheduler_nr_zero (T t0 : Nat) :
    scheduler_nr T t0 0 = schedule_next_run T t0 := rfl

/-- Unfolding of the scheduler state across one poll. -/
theorem scheduler_nr_succ (T t0 k : Nat) :
    scheduler_nr T t0 (k + 1) =
      if scheduler_nr T t0 k ≤ t0 + 60 * k then schedule_next_run T (t0 + 60 * k)
      else scheduler_nr T t0 k := rfl

/-- Loop invariant: the pending `next_run` is at time-of-day `T`, is never
overdue by a full polling interval, and is at most one day away. -/
theorem scheduler_nr_inv (T t0 : Nat) (hT : T < 86400) :
    ∀ k, scheduler_nr T t0 k % 86400 = T ∧
      t0 + 60 * k < scheduler_nr T t0 k + 60 ∧
      scheduler_nr T t0 k ≤ t0 + 60 * k + 86400 := by
  intro k
  induction k with
  | zero =>
    have h := schedule_next_run_spec T t0 hT
    rw [scheduler_nr_zero]
    omega
  | succ k ih =>
    rw [scheduler_nr_succ]
    by_cases hrun : scheduler_nr T t0 k ≤ t0 + 60 * k
    · rw [if_pos hrun]
      have h := schedule_next_run_spec T (t0 + 60 * k) hT
      omega
    · rw [if_neg hrun]
      omega

/-- A poll that fires does so on the pending run's own calendar day, and
reschedules to the following day at `T`. -/
theorem scheduler_run_step (T t0 k : Nat) (hT : T < 86400) (hT60 : T % 60 = 0)
    (hrun : scheduler_ran T t0 k = true) :
    (t0 + 60 * k) / 86400 = scheduler_nr T t0 k / 86400 ∧
    scheduler_nr T t0 (k + 1) = (scheduler_nr T t0 k / 86400 + 1) * 86400 + T := by
  have hinv := scheduler_nr_inv T t0 hT k
  unfold scheduler_ran at hrun
  rw [decide_eq_true_eq] at hrun
  have hday : (t0 + 60 * k) / 86400 = scheduler_nr T t0 k / 86400 := by omega
  refine ⟨hday, ?_⟩
  rw [scheduler_nr_succ, if_pos hrun]
  unfold schedule_next_run
  have htod : ¬((t0 + 60 * k) % 86400 < T) := by omega
  rw [if_neg htod]
  omega

/-- The pending run time never moves backwards across one poll. -/
theorem scheduler_nr_step_le (T t0 : Nat) (hT : T < 86400) (k : Nat) :
    scheduler_nr T t0 k ≤ scheduler_nr T t0 (k + 1) := by
  rw [scheduler_nr_succ]
  by_cases hrun : scheduler_nr T t0 k ≤ t0 + 60 * k
  · rw [if_pos hrun]
    have h := schedule_next_run_spec T (t0 + 60 * k) hT
    omega
  · rw [if_neg hrun]

/-- The pending run time never moves backwards. -/
theorem scheduler_nr_mono (T t0 : Nat) (hT : T < 86400) :
    ∀ {j k : Nat}, j ≤ k → scheduler_nr T t0 j ≤ scheduler_nr T t0 k := by
  intro j k h
  induction k with
  | zero =>
    have hj : j = 0 := by omega
    subst hj
    exact Nat.le_refl _
  | succ z ih =>
    rcases Nat.lt_or_ge j (z + 1) with h1 | h2
    · exact Nat.le_trans (ih (by omega)) (scheduler_nr_step_le T t0 hT z)
    · have hj : j = z + 1 := by omega
      subst hj
      exact Nat.le_refl _

/-- Two distinct firing polls fall on distinct calendar days (the earlier
one strictly earlier). -/
theorem scheduler_runs_distinct_days (T t0 : Nat) (hT : T < 86400)
    (hT60 : T % 60 = 0) :
    ∀ j k, j < k → scheduler_ran T t0 j = true → scheduler_ran T t0 k = true →
      (t0 + 60 * j) / 86400 < (t0 + 60 * k) / 86400 := by
  intro j k hjk hrj hrk
  obtain ⟨hdayj, hnextj⟩ := scheduler_run_step T t0 j hT hT60 hrj
  have hmono := scheduler_nr_mono T t0 hT (show j + 1 ≤ k by omega)
  unfold scheduler_ran at hrk
  rw [decide_eq_true_eq] at hrk
  omega

/-- If the pending run is at most `n` polls away, some later poll fires
while the pending run time is still the same. -/
theorem scheduler_wait (T t0 : Nat) (hT : T < 86400) :
    ∀ (n k : Nat), scheduler_nr T t0 k ≤ t0 + 60 * k + 60 * n →
      ∃ k2, k ≤ k2 ∧ scheduler_nr T t0 k2 = scheduler_nr T t0 k ∧
        scheduler_ran T t0 k2 = true := by
  intro n
  induction n with
  | zero =>
    intro k h
    refine ⟨k, Nat.le_refl k, rfl, ?_⟩
    unfold scheduler_ran
    rw [decide_eq_true_eq]
    omega
  | succ n ih =>
    intro k h
    by_cases hrun : scheduler_nr T t0 k ≤ t0 + 60 * k
    · refine ⟨k, Nat.le_refl k, rfl, ?_⟩
      unfold scheduler_ran
      rw [decide_eq_true_eq]
      exact hrun
    · have hstep : scheduler_nr T t0 (k + 1) = scheduler_nr T t0 k := by
        rw [scheduler_nr_succ, if_neg hrun]
      have h2 : scheduler_nr T t0 (k + 1) ≤ t0 + 60 * (k + 1) + 60 * n := by
        omega
      obtain ⟨k2, hk2, heq, hran⟩ := ih (k + 1) h2
      refine ⟨k2, by omega, ?_, hran⟩
      rw [heq, hstep]

/-- Whenever the pending run sits at day `D`'s time `T`, some poll fires on
day `D` and reschedules to day `D + 1`. -/
theorem scheduler_reach (T t0 : Nat) (hT : T < 86400) (hT60 : T % 60 = 0)
    (k D : Nat) (hD : scheduler_nr T t0 k = D * 86400 + T) :
    ∃ k2, scheduler_ran T t0 k2 = true ∧ (t0 + 60 * k2) / 86400 = D ∧
      scheduler_nr T t0 (k2 + 1) = (D + 1) * 86400 + T := by
  have hinv := scheduler_nr_inv T t0 hT k
  obtain ⟨k2, hk2, heq, hran⟩ := scheduler_wait T t0 hT 1440 k (by omega)
  obtain ⟨hday, hnext⟩ := scheduler_run_step T t0 k2 hT hT60 hran
  rw [heq, hD] at hday hnext
  exact ⟨k2, hran, by omega, by omega⟩

/-- Every day from the initially scheduled one onwards is eventually the
pending run's day. -/
theorem scheduler_day_reached (T t0 : Nat) (hT : T < 86400) (hT60 : T % 60 = 0) :
    ∀ D, scheduler_nr T t0 0 / 86400 ≤ D →
      ∃ k, scheduler_nr T t0 k = D * 86400 + T := by
  intro D
  induction D with
  | zero =>
    intro h
    refine ⟨0, ?_⟩
    have h0 := scheduler_nr_inv T t0 hT 0
    omega
  | succ D ih =>
    intro h
    rcases Nat.lt_or_ge (scheduler_nr T t0 0 / 86400) (D + 1) with h1 | h2
    · obtain ⟨k, hk⟩ := ih (by omega)
      obtain ⟨k2, _, _, hnext⟩ := scheduler_reach T t0 hT hT60 k D hk
      exact ⟨k2 + 1, hnext⟩
    · refine ⟨0, ?_⟩
      have h0 := scheduler_nr_inv T t0 hT 0
      omega

/-- Claim C7: with the fixed 60-second polling cadence of `scheduler_loop`
and a minute-granular configured time `T`, the daily job fires at most once
per calendar day; it fires at least once on every calendar day after the
start day, and also on the start day itself when the loop starts before `T`
— the `run_pending` comparison is `now >= next_run`, never exact-time
equality, so the coarse poll cannot miss the trigger window.  The `schedule`
library is not part of src/ and its daily-at-`T` job semantics is modelled
from the spec. -/
theorem scheduler_loop_daily (T t0 : Nat) (hT60 : T % 60 = 0) (hT : T < 86400) :
    (∀ j k, scheduler_ran T t0 j = true → scheduler_ran T t0 k = true →
      (t0 + 60 * j) / 86400 = (t0 + 60 * k) / 86400 → j = k) ∧
    (∀ d, t0 / 86400 < d →
      ∃ k, scheduler_ran T t0 k = true ∧ (t0 + 60 * k) / 86400 = d) ∧
    (t0 % 86400 < T →
      ∃ k, scheduler_ran T t0 k = true ∧ (t0 + 60 * k) / 86400 = t0 / 86400) := by
  refine ⟨?_, ?_, ?_⟩
  · intro j k hj hk hday
    rcases Nat.lt_trichotomy j k with h | h | h
    · have := scheduler_runs_distinct_days T t0 hT hT60 j k h hj hk
      omega
    · exact h
    · have := scheduler_runs_distinct_days T t0 hT hT60 k j h hk hj
      omega
  · intro d hd
    have h0 := scheduler_nr_inv T t0 hT 0
    have hD0 : scheduler_nr T t0 0 / 86400 ≤ d := by omega
    obtain ⟨k, hk⟩ := scheduler_day_reached T t0 hT hT60 d hD0
    obtain ⟨k2, hran, hday, _⟩ := scheduler_reach T t0 hT hT60 k d hk
    exact ⟨k2, hran, hday⟩
  · intro hlt
    have h0 : scheduler_nr T t0 0 = t0 / 86400 * 86400 + T := by
      rw [scheduler_nr_zero]
      unfold schedule_next_run
      rw [if_pos hlt]
    obtain ⟨k2, hran, hday, _⟩ := scheduler_reach T t0 hT hT60 0 (t0 / 86400) h0
    exact ⟨k2, hran, hday⟩

/-- Witness for C7: notify time 09:00 (32400 s), loop started at second
30000 of day 0. -/
theorem scheduler_loop_daily_witness :
    (32400 % 60 = 0 ∧ 32400 < 86400) ∧
    ((∀ j k, scheduler_ran 32400 30000 j = true →
        scheduler_ran 32400 30000 k = true →
        (30000 + 60 * j) / 86400 = (30000 + 60 * k) / 86400 → j = k) ∧
      (∀ d, 30000 / 86400 < d →
        ∃ k, scheduler_ran 32400 30000 k = true ∧ (30000 + 60 * k) / 86400 = d) ∧
      (30000 % 86400 < 32400 →
        ∃ k, scheduler_ran 32400 30000 k = true ∧
          (30000 + 60 * k) / 86400 = 30000 / 86400)) :=
  ⟨⟨by decide, by decide⟩, scheduler_loop_daily 32400 30000 (by decide) (by decide)⟩

end BirthdayMatters
